import Mathlib

/-!
Shallow embedding of the barthez DNS codec and resolver (Rust sources under
src/: packet.rs, header.rs, question.rs, record.rs, result.rs, server.rs and
the legacy standalone copy in main.rs), together with theorems settling the
frozen claims about it.

Modelling conventions:
* Rust `u8`/`u16`/`u32`/`usize` values are modelled as `Nat`; the `as u8` /
  `as u16` casts of the source are modelled as `% 256` / `% 65536` at the
  exact places they occur.  Buffer cells are `u8` in the source, so every
  read of a cell reduces it `% 256`.
* A Rust `String` is modelled as the list of its UTF-8 bytes (`List Nat`).
  Splitting on the ASCII dot is byte-exact for UTF-8.  The source's
  `String::from_utf8_lossy(..).to_lowercase()` is modelled byte-wise by
  `asciiLower`, which agrees with the source on ASCII content (the domain
  of every claim that inspects a decoded name).
* Error payloads (the diagnostic `String` carried by `PacketBufferOver512`)
  are elided; the error constructors themselves are kept.
* The loop of `read_qname` is defined with an explicit fuel parameter so
  that it stays structurally recursive and executable; `read_qname_go_total`
  proves that the fuel supplied by `read_qname` can never run out, so the
  fallback value is unreachable and the model is total exactly like the
  source loop (which terminates because the jump counter is capped and the
  local position strictly increases between jumps).
-/

/-- Error type of result.rs (diagnostic string payloads elided). -/
inductive Error where
  | PacketBufferInvalidPosition
  | PacketBufferOver512
  | MaxJumpsAttained
  | InvalidInputPath
  | FailedReadingFile
  | LabelLengthOver63
  | UDPBindFailed
  | UDPSendFailed
  | UDPRecvFailed
deriving DecidableEq, Repr

/-- Response codes of result.rs. -/
inductive ResultCode where
  | NoError
  | FormErr
  | ServFail
  | NXDomain
  | NotImp
  | Refused
deriving DecidableEq, Repr

/-- The enum discriminants of `ResultCode` (used by `response_code as u8`). -/
def ResultCode.toByte : ResultCode → Nat
  | .NoError => 0
  | .FormErr => 1
  | .ServFail => 2
  | .NXDomain => 3
  | .NotImp => 4
  | .Refused => 5

/-- The conversion `impl From<u8> for ResultCode` of result.rs: 1..5 map to
the named failures, everything else (including 0 and 6..255) to `NoError`. -/
def ResultCode.fromByte : Nat → ResultCode
  | 1 => .FormErr
  | 2 => .ServFail
  | 3 => .NXDomain
  | 4 => .NotImp
  | 5 => .Refused
  | _ => .NoError

/-- Modelled from the spec: the constant `MAX_JUMPS` lives in the crate's
globals.rs, which is not among the provided sources (packet.rs imports
`crate::globals::MAX_JUMPS`); the spec fixes it at 5. -/
def MAX_JUMPS : Nat := 5

/-- Byte-level model of the source's
`String::from_utf8_lossy(bytes).to_lowercase()`: on ASCII bytes both are
plain ASCII lowercasing, which is what this function performs. -/
def asciiLower (c : Nat) : Nat := if 65 ≤ c ∧ c ≤ 90 then c + 32 else c

/-- The `PacketBuffer` of packet.rs: a 512-byte backing store and a cursor.
The backing store is modelled as a total function from indices to cells (all
source accesses are bound-checked or are modelled as the panic they would
be); the unused `_bit_pos` field is omitted. -/
structure PacketBuffer where
  bytes : Nat → Nat
  pos : Nat

/-- `PacketBuffer::new`. -/
def PacketBuffer.new : PacketBuffer := ⟨fun _ => 0, 0⟩

/-- Writing one cell of the backing store (`self.bytes[p] = v` with `v : u8`). -/
def setByte (f : Nat → Nat) (p v : Nat) : Nat → Nat :=
  fun i => if i = p then v % 256 else f i

/-- `PacketBuffer::check_pos`. -/
def PacketBuffer.check_pos (b : PacketBuffer) : Except Error Unit :=
  if b.pos ≥ 512 then .error .PacketBufferOver512 else .ok ()

/-- `PacketBuffer::get` (packet.rs): bound-checked peek. -/
def PacketBuffer.get (b : PacketBuffer) (n : Nat) : Except Error Nat :=
  if n ≥ 512 then .error .PacketBufferOver512 else .ok (b.bytes n % 256)

/-- `PacketBuffer::step`: unchecked cursor advance. -/
def PacketBuffer.step (b : PacketBuffer) (n : Nat) : PacketBuffer :=
  { b with pos := b.pos + n }

/-- `PacketBuffer::seek`. -/
def PacketBuffer.seek (b : PacketBuffer) (n : Nat) : Except Error PacketBuffer :=
  if n ≥ 512 then .error .PacketBufferOver512 else .ok { b with pos := n }

/-- `PacketBuffer::get_range` (note the source's `start + len >= 512` test,
which also rejects a range ending exactly at index 511). -/
def PacketBuffer.get_range (b : PacketBuffer) (start len : Nat) : Except Error (List Nat) :=
  if start + len ≥ 512 then .error .PacketBufferOver512
  else .ok ((List.range len).map fun i => b.bytes (start + i) % 256)

/-- `PacketBuffer::read_u8`. -/
def PacketBuffer.read_u8 (b : PacketBuffer) : Except Error (Nat × PacketBuffer) :=
  if b.pos ≥ 512 then .error .PacketBufferOver512
  else .ok (b.bytes b.pos % 256, { b with pos := b.pos + 1 })

/-- `PacketBuffer::read_u16` (big-endian; the redundant initial `check_pos`
of the source is kept). -/
def PacketBuffer.read_u16 (b : PacketBuffer) : Except Error (Nat × PacketBuffer) := do
  let _ ← b.check_pos
  let (first, b) ← b.read_u8
  let (second, b) ← b.read_u8
  .ok ((first <<< 8) ||| second, b)

/-- `PacketBuffer::read_u32`. -/
def PacketBuffer.read_u32 (b : PacketBuffer) : Except Error (Nat × PacketBuffer) := do
  let _ ← b.check_pos
  let (one, b) ← b.read_u8
  let (two, b) ← b.read_u8
  let (three, b) ← b.read_u8
  let (four, b) ← b.read_u8
  .ok ((one <<< 24) ||| (two <<< 16) ||| (three <<< 8) ||| four, b)

/-- Loop body of `PacketBuffer::read_qname` (packet.rs lines 139-195), with
the loop state (`jumps`, `jumped`, `local_pos`, `delim`, `output`) explicit
and an extra fuel argument making the recursion structural.  `none` means
the fuel ran out, which `read_qname_go_total` proves unreachable for the
fuel used by `read_qname`. -/
def PacketBuffer.read_qname_go :
    Nat → PacketBuffer → Nat → Bool → Nat → List Nat → List Nat →
    Option (Except Error (List Nat × PacketBuffer))
  | 0, _, _, _, _, _, _ => none
  | fuel + 1, b, jumps, jumped, local_pos, delim, output =>
    -- `if jumps >= MAX_JUMPS { return Err(MaxJumpsAttained) }`
    if jumps ≥ MAX_JUMPS then some (.error .MaxJumpsAttained)
    -- `let label_len = self.get(local_pos)?` (bound check of `get`)
    else if local_pos ≥ 512 then some (.error .PacketBufferOver512)
    else if b.bytes local_pos % 256 &&& 0xC0 = 0xC0 then
      if jumped then
        -- already jumped: no `seek`; `self.get(local_pos + 1)?` for the low offset byte
        if local_pos + 1 ≥ 512 then some (.error .PacketBufferOver512)
        else
          PacketBuffer.read_qname_go fuel b (jumps + 1) true
            ((((b.bytes local_pos % 256) ^^^ 0xC0) <<< 8) ||| (b.bytes (local_pos + 1) % 256))
            delim output
      else
        -- `self.seek(local_pos + 2)?` (bound check), then `self.get(local_pos + 1)?`
        if local_pos + 2 ≥ 512 then some (.error .PacketBufferOver512)
        else if local_pos + 1 ≥ 512 then some (.error .PacketBufferOver512)
        else
          PacketBuffer.read_qname_go fuel { b with pos := local_pos + 2 } (jumps + 1) true
            ((((b.bytes local_pos % 256) ^^^ 0xC0) <<< 8) ||| (b.bytes (local_pos + 1) % 256))
            delim output
    else if b.bytes local_pos % 256 = 0 then
      -- `break`, then `if !jumped { self.seek(local_pos)?; }` past the zero byte
      if jumped then some (.ok (output, b))
      else if local_pos + 1 ≥ 512 then some (.error .PacketBufferOver512)
      else some (.ok (output, { b with pos := local_pos + 1 }))
    else
      -- `let label_bytes = self.get_range(local_pos, label_len)?` after `local_pos += 1`
      if local_pos + 1 + (b.bytes local_pos % 256) ≥ 512 then some (.error .PacketBufferOver512)
      else
        PacketBuffer.read_qname_go fuel b jumps jumped
          (local_pos + 1 + (b.bytes local_pos % 256)) [46]
          (output ++ delim ++
            ((List.range (b.bytes local_pos % 256)).map
              fun i => b.bytes (local_pos + 1 + i) % 256).map asciiLower)

/-- `PacketBuffer::read_qname`.  The fuel 6000 strictly dominates the loop
measure `(MAX_JUMPS - jumps) * 1024 + (512 - local_pos)` (at most 5632), so
by `read_qname_go_total` the fallback value is never returned. -/
def PacketBuffer.read_qname (b : PacketBuffer) : Except Error (List Nat × PacketBuffer) :=
  (PacketBuffer.read_qname_go 6000 b 0 false b.pos [] []).getD (.error .MaxJumpsAttained)

/-- The fuelled loop cannot run out of fuel above the loop measure: each
pointer hop decreases `MAX_JUMPS - jumps` and each label strictly advances
`local_pos`, which stays below 512 while the loop keeps reading. -/
theorem read_qname_go_total :
    ∀ (fuel : Nat) (b : PacketBuffer) (jumps : Nat) (jumped : Bool)
      (local_pos : Nat) (delim output : List Nat),
      (MAX_JUMPS - jumps) * 1024 + (512 - local_pos) < fuel →
      (PacketBuffer.read_qname_go fuel b jumps jumped local_pos delim output).isSome := by
  intro fuel
  induction fuel with
  | zero => intro b jumps jumped local_pos delim output h; omega
  | succ fuel ih =>
    intro b jumps jumped local_pos delim output h
    rw [PacketBuffer.read_qname_go]
    repeat' split
    all_goals
      first
        | rfl
        | (apply ih; simp only [MAX_JUMPS] at *; omega)

/-- The top-level fuel is always sufficient. -/
theorem read_qname_fuel_sufficient (b : PacketBuffer) :
    (PacketBuffer.read_qname_go 6000 b 0 false b.pos [] []).isSome := by
  apply read_qname_go_total
  simp only [MAX_JUMPS]
  omega

/-- `PacketBuffer::write_u8`. -/
def PacketBuffer.write_u8 (b : PacketBuffer) (value : Nat) : Except Error PacketBuffer :=
  if b.pos ≥ 512 then .error .PacketBufferOver512
  else .ok { bytes := setByte b.bytes b.pos value, pos := b.pos + 1 }

/-- `PacketBuffer::write_u16` (big-endian, two `write_u8` calls). -/
def PacketBuffer.write_u16 (b : PacketBuffer) (value : Nat) : Except Error PacketBuffer := do
  let b ← b.write_u8 (value >>> 8)
  b.write_u8 (value &&& 0xFF)

/-- `PacketBuffer::write_u32`. -/
def PacketBuffer.write_u32 (b : PacketBuffer) (value : Nat) : Except Error PacketBuffer := do
  let b ← b.write_u8 (value >>> 24)
  let b ← b.write_u8 ((value >>> 16) &&& 0xFF)
  let b ← b.write_u8 ((value >>> 8) &&& 0xFF)
  b.write_u8 (value &&& 0xFF)

/-- Rust's `str::split('.')` on the UTF-8 bytes of a string (byte 46 is the
ASCII dot; multi-byte UTF-8 units are ≥ 0x80, so byte-level splitting is
exact).  Like the Rust iterator it yields `[[]]` on the empty string and
empty pieces around consecutive, leading or trailing dots. -/
def splitDot : List Nat → List (List Nat)
  | [] => [[]]
  | c :: rest =>
    if c = 46 then [] :: splitDot rest
    else
      match splitDot rest with
      | l :: ls => (c :: l) :: ls
      | [] => [[c]]

/-- The inner `for b in label.bytes() { self.write_u8(b)?; }` loop of
`PacketBuffer::write_qname`. -/
def PacketBuffer.write_bytes (b : PacketBuffer) : List Nat → Except Error PacketBuffer
  | [] => .ok b
  | c :: cs =>
    match b.write_u8 c with
    | .error e => .error e
    | .ok b1 => b1.write_bytes cs

/-- The per-label body of `PacketBuffer::write_qname`: for each piece of the
split, check the length bound, write the length byte and the label bytes. -/
def PacketBuffer.write_labels (b : PacketBuffer) : List (List Nat) → Except Error PacketBuffer
  | [] => .ok b
  | label :: rest =>
    if label.length ≥ 63 then .error .LabelLengthOver63
    else
      match b.write_u8 label.length with
      | .error e => .error e
      | .ok b1 =>
        match b1.write_bytes label with
        | .error e => .error e
        | .ok b2 => b2.write_labels rest

/-- `PacketBuffer::write_qname`. -/
def PacketBuffer.write_qname (b : PacketBuffer) (qname : List Nat) : Except Error PacketBuffer := do
  let b ← b.write_labels (splitDot qname)
  b.write_u8 0

/-- `PacketBuffer::set_u8`. -/
def PacketBuffer.set_u8 (b : PacketBuffer) (p value : Nat) : Except Error PacketBuffer :=
  if p ≥ 512 then .error .PacketBufferOver512
  else .ok { b with bytes := setByte b.bytes p value }

/-- `PacketBuffer::set_u16` exactly as written in packet.rs lines 266-270:
both `set_u8` calls target the same position `p`. -/
def PacketBuffer.set_u16 (b : PacketBuffer) (p value : Nat) : Except Error PacketBuffer := do
  let b ← b.set_u8 p ((value >>> 8) &&& 0x00FF)
  b.set_u8 p (value &&& 0x00FF)

/-- The DNS message header of header.rs. -/
structure Header where
  id : Nat
  is_response : Bool
  _op_code : Nat
  is_authoritative : Bool
  is_truncated : Bool
  recursion_desired : Bool
  recursion_available : Bool
  _z : Nat
  response_code : ResultCode
  question_count : Nat
  answer_count : Nat
  authority_count : Nat
  additional_count : Nat
deriving DecidableEq, Repr

/-- The `Default` impl of header.rs (note the source's default id 6666). -/
def Header.default : Header :=
  { id := 6666, is_response := false, _op_code := 0, is_authoritative := false,
    is_truncated := false, recursion_desired := false, recursion_available := false,
    _z := 0, response_code := .NoError, question_count := 0, answer_count := 0,
    authority_count := 0, additional_count := 0 }

/-- The `true => 1, false => 0` meaning of Rust's `bool as u8`. -/
def boolByte (x : Bool) : Nat := if x then 1 else 0

/-- `Header::write` (header.rs lines 89-108). -/
def Header.write (h : Header) (b : PacketBuffer) : Except Error PacketBuffer := do
  let b ← b.write_u16 h.id
  let b ← b.write_u8
    ((boolByte h.is_response <<< 7) ||| (h._op_code <<< 3) |||
      (boolByte h.is_authoritative <<< 2) ||| (boolByte h.is_truncated <<< 1) |||
      boolByte h.recursion_desired)
  let b ← b.write_u8
    ((boolByte h.recursion_available <<< 7) ||| (h._z <<< 6) ||| h.response_code.toByte)
  let b ← b.write_u16 h.question_count
  let b ← b.write_u16 h.answer_count
  let b ← b.write_u16 h.authority_count
  let b ← b.write_u16 h.additional_count
  .ok b

/-- `Header::try_from` (header.rs lines 152-201), including the source's
masks `0x74` for the opcode and `(byte & 0x70) >> 5` for the z bits. -/
def Header.try_from (b : PacketBuffer) : Except Error (Header × PacketBuffer) := do
  if b.pos ≠ 0 then .error .PacketBufferInvalidPosition
  else
    let (id, b) ← b.read_u16
    let (byte1, b) ← b.read_u8
    let (byte2, b) ← b.read_u8
    let (question_count, b) ← b.read_u16
    let (answer_count, b) ← b.read_u16
    let (authority_count, b) ← b.read_u16
    let (additional_count, b) ← b.read_u16
    .ok ({ id := id,
           is_response := byte1 &&& 0x80 != 0,
           _op_code := (byte1 &&& 0x74) >>> 3,
           is_authoritative := byte1 &&& 0x04 != 0,
           is_truncated := byte1 &&& 0x02 != 0,
           recursion_desired := byte1 &&& 0x01 != 0,
           recursion_available := byte2 &&& 0x80 != 0,
           _z := (byte2 &&& 0x70) >>> 5,
           response_code := ResultCode.fromByte (byte2 &&& 0x0f),
           question_count := question_count,
           answer_count := answer_count,
           authority_count := authority_count,
           additional_count := additional_count }, b)

/-- The record types of record.rs. -/
inductive RecordType where
  | Unknown (code : Nat)
  | A
  | NS
  | CNAME
  | MX
  | AAAA
deriving DecidableEq, Repr

/-- `impl From<RecordType> for u16`. -/
def RecordType.toNum : RecordType → Nat
  | .A => 1
  | .NS => 2
  | .CNAME => 5
  | .MX => 15
  | .AAAA => 28
  | .Unknown x => x

/-- `impl From<u16> for RecordType`. -/
def RecordType.fromNum (value : Nat) : RecordType :=
  match value with
  | 1 => .A
  | 2 => .NS
  | 5 => .CNAME
  | 15 => .MX
  | 28 => .AAAA
  | _ => .Unknown value

/-- An IPv4 address (`std::net::Ipv4Addr`), four octets. -/
structure Ipv4 where
  o1 : Nat
  o2 : Nat
  o3 : Nat
  o4 : Nat
deriving DecidableEq, Repr

/-- An IPv6 address (`std::net::Ipv6Addr`), eight 16-bit segments. -/
structure Ipv6 where
  s1 : Nat
  s2 : Nat
  s3 : Nat
  s4 : Nat
  s5 : Nat
  s6 : Nat
  s7 : Nat
  s8 : Nat
deriving DecidableEq, Repr

/-- `RecordPreamble` of record.rs. -/
structure RecordPreamble where
  name : List Nat
  record_type : RecordType
  _class : Nat
  ttl : Nat
  len : Nat
deriving DecidableEq, Repr

/-- The `Record` tagged union of record.rs. -/
inductive Record where
  | Unknown (preamble : RecordPreamble)
  | A (preamble : RecordPreamble) (addr : Ipv4)
  | NS (preamble : RecordPreamble) (host : List Nat)
  | CNAME (preamble : RecordPreamble) (host : List Nat)
  | MX (preamble : RecordPreamble) (preference : Nat) (exchange : List Nat)
  | AAAA (preamble : RecordPreamble) (addr : Ipv6)
deriving DecidableEq, Repr

/-- `Question` of question.rs. -/
structure Question where
  name : List Nat
  question_type : RecordType
  _class : Nat
deriving DecidableEq, Repr

/-- `Question::new`. -/
def Question.new (qname : List Nat) (qtype : RecordType) : Question :=
  { name := qname, question_type := qtype, _class := 1 }

/-- `Question::write`. -/
def Question.write (q : Question) (b : PacketBuffer) : Except Error PacketBuffer := do
  let b ← b.write_qname q.name
  let b ← b.write_u16 q.question_type.toNum
  b.write_u16 q._class

/-- `Question::try_from` (the `_class != 1` branch only prints a warning). -/
def Question.try_from (b : PacketBuffer) : Except Error (Question × PacketBuffer) := do
  let (name, b) ← b.read_qname
  let (qt, b) ← b.read_u16
  let (c, b) ← b.read_u16
  .ok ({ name := name, question_type := RecordType.fromNum qt, _class := c }, b)

/-- The preamble phase of `Record::try_from` (record.rs lines 280-291). -/
def Record.read_preamble (b : PacketBuffer) : Except Error (RecordPreamble × PacketBuffer) := do
  let (name, b) ← b.read_qname
  let (rt, b) ← b.read_u16
  let (c, b) ← b.read_u16
  let (ttl, b) ← b.read_u32
  let (len, b) ← b.read_u16
  .ok ({ name := name, record_type := RecordType.fromNum rt, _class := c,
         ttl := ttl, len := len }, b)

/-- `Record::try_from` (record.rs lines 276-345). -/
def Record.try_from (b : PacketBuffer) : Except Error (Record × PacketBuffer) := do
  let (preamble, b) ← Record.read_preamble b
  match preamble.record_type with
  | .A => do
    let (one, b) ← b.read_u8
    let (two, b) ← b.read_u8
    let (three, b) ← b.read_u8
    let (four, b) ← b.read_u8
    .ok (.A preamble ⟨one, two, three, four⟩, b)
  | .NS => do
    let (host, b) ← b.read_qname
    .ok (.NS preamble host, b)
  | .CNAME => do
    let (host, b) ← b.read_qname
    .ok (.CNAME preamble host, b)
  | .MX => do
    let (preference, b) ← b.read_u16
    let (exchange, b) ← b.read_qname
    .ok (.MX preamble preference exchange, b)
  | .AAAA => do
    let (one, b) ← b.read_u32
    let (two, b) ← b.read_u32
    let (three, b) ← b.read_u32
    let (four, b) ← b.read_u32
    .ok (.AAAA preamble
      ⟨(one >>> 16) &&& 0xFFFF, one &&& 0xFFFF,
       (two >>> 16) &&& 0xFFFF, two &&& 0xFFFF,
       (three >>> 16) &&& 0xFFFF, three &&& 0xFFFF,
       (four >>> 16) &&& 0xFFFF, four &&& 0xFFFF⟩, b)
  | .Unknown _ =>
    -- `buffer.step(preamble.len.into())` skips the unparsed RDATA
    .ok (.Unknown preamble, b.step preamble.len)

/-- `Record::write` (record.rs lines 141-224).  The `_ => println!(..)` arm
for `Unknown` writes nothing and succeeds. -/
def Record.write (r : Record) (b : PacketBuffer) : Except Error PacketBuffer :=
  match r with
  | .A preamble addr => do
    let b ← b.write_qname preamble.name
    let b ← b.write_u16 (RecordType.toNum .A)
    let b ← b.write_u16 1
    let b ← b.write_u32 preamble.ttl
    let b ← b.write_u16 4
    let b ← b.write_u8 addr.o1
    let b ← b.write_u8 addr.o2
    let b ← b.write_u8 addr.o3
    b.write_u8 addr.o4
  | .NS preamble host => do
    let b ← b.write_qname preamble.name
    let b ← b.write_u16 (RecordType.toNum .NS)
    let b ← b.write_u16 1
    let b ← b.write_u32 preamble.ttl
    let b1 ← b.write_u16 0
    let b2 ← b1.write_qname host
    -- `let size = buffer.pos() - pos + 2;` with `pos` taken before the
    -- placeholder, then `set_u16(pos, size as u16)`
    b2.set_u16 b.pos ((b2.pos - b.pos + 2) % 65536)
  | .CNAME preamble host => do
    let b ← b.write_qname preamble.name
    let b ← b.write_u16 (RecordType.toNum .CNAME)
    let b ← b.write_u16 1
    let b ← b.write_u32 preamble.ttl
    let b1 ← b.write_u16 0
    let b2 ← b1.write_qname host
    b2.set_u16 b.pos ((b2.pos - b.pos + 2) % 65536)
  | .MX preamble preference exchange => do
    let b ← b.write_qname preamble.name
    let b ← b.write_u16 (RecordType.toNum .MX)
    let b ← b.write_u16 1
    let b ← b.write_u32 preamble.ttl
    let b1 ← b.write_u16 0
    let b2 ← b1.write_u16 preference
    let b3 ← b2.write_qname exchange
    b3.set_u16 b.pos ((b3.pos - b.pos + 2) % 65536)
  | .AAAA preamble addr => do
    let b ← b.write_qname preamble.name
    let b ← b.write_u16 (RecordType.toNum .AAAA)
    let b ← b.write_u16 1
    let b ← b.write_u32 preamble.ttl
    let b ← b.write_u16 16
    let b ← b.write_u16 addr.s1
    let b ← b.write_u16 addr.s2
    let b ← b.write_u16 addr.s3
    let b ← b.write_u16 addr.s4
    let b ← b.write_u16 addr.s5
    let b ← b.write_u16 addr.s6
    let b ← b.write_u16 addr.s7
    b.write_u16 addr.s8
  | .Unknown _ => .ok b

/-- The `Packet` aggregate of packet.rs. -/
structure Packet where
  header : Header
  questions : List Question
  answers : List Record
  authorities : List Record
  additionals : List Record
deriving DecidableEq, Repr

/-- The `Default` impl of `Packet`. -/
def Packet.default : Packet :=
  { header := Header.default, questions := [], answers := [],
    authorities := [], additionals := [] }

/-- `Packet::add_question`. -/
def Packet.add_question (p : Packet) (qname : List Nat) (qtype : RecordType) : Packet :=
  { p with questions := p.questions ++ [Question.new qname qtype],
           header := { p.header with question_count := p.header.question_count + 1 } }

/-- `Packet::get_random_a`: the first A answer's address. -/
def Packet.get_random_a (p : Packet) : Option Ipv4 :=
  p.answers.findSome? fun r =>
    match r with
    | .A _ addr => some addr
    | _ => none

/-- `Packet::match_ns`: authority NS records whose owner name is a suffix of
the query name (`qname.ends_with(&preamble.name)`), as `(zone, host)`. -/
def Packet.match_ns (p : Packet) (qname : List Nat) : List (List Nat × List Nat) :=
  p.authorities.filterMap fun r =>
    match r with
    | .NS preamble host =>
      if preamble.name.isSuffixOf qname then some (preamble.name, host) else none
    | _ => none

/-- `Packet::get_resolved_ns`: the first glue A address for a matched NS. -/
def Packet.get_resolved_ns (p : Packet) (qname : List Nat) : Option Ipv4 :=
  ((p.match_ns qname).flatMap fun zh =>
    p.additionals.filterMap fun r =>
      match r with
      | .A preamble addr => if preamble.name = zh.2 then some addr else none
      | _ => none).head?

/-- `Packet::get_unresolved_ns`: the first matched NS host name. -/
def Packet.get_unresolved_ns (p : Packet) (qname : List Nat) : Option (List Nat) :=
  ((p.match_ns qname).map fun zh => zh.2).head?

/-- The `for question in &self.questions { question.write(buffer)?; }` loop
of `Packet::write`. -/
def writeQuestions : List Question → PacketBuffer → Except Error PacketBuffer
  | [], b => .ok b
  | q :: qs, b =>
    match q.write b with
    | .error e => .error e
    | .ok b1 => writeQuestions qs b1

/-- The record-section loops of `Packet::write`. -/
def writeRecords : List Record → PacketBuffer → Except Error PacketBuffer
  | [], b => .ok b
  | r :: rs, b =>
    match r.write b with
    | .error e => .error e
    | .ok b1 => writeRecords rs b1

/-- `Packet::write`. -/
def Packet.write (p : Packet) (b : PacketBuffer) : Except Error PacketBuffer := do
  let b ← p.header.write b
  let b ← writeQuestions p.questions b
  let b ← writeRecords p.answers b
  let b ← writeRecords p.authorities b
  writeRecords p.additionals b

/-- The `for _ in 0..count { push(Question::try_from(..)?) }` loop of
`Packet::try_from`. -/
def readQuestions : Nat → PacketBuffer → Except Error (List Question × PacketBuffer)
  | 0, b => .ok ([], b)
  | n + 1, b => do
    let (q, b) ← Question.try_from b
    let (qs, b) ← readQuestions n b
    .ok (q :: qs, b)

/-- The record-section loops of `Packet::try_from`. -/
def readRecords : Nat → PacketBuffer → Except Error (List Record × PacketBuffer)
  | 0, b => .ok ([], b)
  | n + 1, b => do
    let (r, b) ← Record.try_from b
    let (rs, b) ← readRecords n b
    .ok (r :: rs, b)

/-- `Packet::try_from` (packet.rs lines 422-461). -/
def Packet.try_from (b : PacketBuffer) : Except Error Packet := do
  let (header, b) ← Header.try_from b
  let (questions, b) ← readQuestions header.question_count b
  let (answers, b) ← readRecords header.answer_count b
  let (authorities, b) ← readRecords header.authority_count b
  let (additionals, _) ← readRecords header.additional_count b
  .ok { header := header, questions := questions, answers := answers,
        authorities := authorities, additionals := additionals }

/-- Outcome of running code from main.rs, whose `get` accesses the byte
array without a bound check: `oob` is the out-of-bounds panic that
`self.bytes[n]` raises when `n ≥ 512`. -/
inductive MainOutcome (α : Type) where
  | ok (a : α)
  | err (e : Error)
  | oob
deriving DecidableEq, Repr

/-- `PacketBuffer::get` of main.rs (lines 49-57): the bound check is
commented out in the source, so an index ≥ 512 hits `self.bytes[n]` and
panics. -/
def Main.get (b : PacketBuffer) (n : Nat) : MainOutcome Nat :=
  if n < 512 then .ok (b.bytes n % 256) else .oob

/-- Loop body of the `read_qname` of main.rs (lines 132-216).  Differences
from the packet.rs copy: the jump guard is the strict `jumps_performed >
max_jumps` with the literal `max_jumps = 5`, and every `get` is unchecked
(so a pointer may panic instead of failing).  Fuel as in
`PacketBuffer.read_qname_go`. -/
def Main.read_qname_go :
    Nat → PacketBuffer → Nat → Bool → Nat → List Nat → List Nat →
    Option (MainOutcome (List Nat × PacketBuffer))
  | 0, _, _, _, _, _, _ => none
  | fuel + 1, b, jumps_performed, jumped, pos, delim, output =>
    -- `if jumps_performed > max_jumps { return Err(MaxJumpsAttained) }`
    if jumps_performed > 5 then some (.err .MaxJumpsAttained)
    -- `let len = self.get(pos)?`: unchecked, panics at pos ≥ 512
    else if pos ≥ 512 then some .oob
    else if b.bytes pos % 256 &&& 0xC0 = 0xC0 then
      if jumped then
        if pos + 1 ≥ 512 then some .oob
        else
          Main.read_qname_go fuel b (jumps_performed + 1) true
            ((((b.bytes pos % 256) ^^^ 0xC0) <<< 8) ||| (b.bytes (pos + 1) % 256))
            delim output
      else
        -- `self.seek(pos + 2)?` (main.rs seek is bound-checked), then the
        -- unchecked `self.get(pos + 1)?`
        if pos + 2 ≥ 512 then some (.err .PacketBufferOver512)
        else if pos + 1 ≥ 512 then some .oob
        else
          Main.read_qname_go fuel { b with pos := pos + 2 } (jumps_performed + 1) true
            ((((b.bytes pos % 256) ^^^ 0xC0) <<< 8) ||| (b.bytes (pos + 1) % 256))
            delim output
    else if b.bytes pos % 256 = 0 then
      if jumped then some (.ok (output, b))
      else if pos + 1 ≥ 512 then some (.err .PacketBufferOver512)
      else some (.ok (output, { b with pos := pos + 1 }))
    else
      -- `let str_buffer = self.get_range(pos, len)?` (bound-checked)
      if pos + 1 + (b.bytes pos % 256) ≥ 512 then some (.err .PacketBufferOver512)
      else
        Main.read_qname_go fuel b jumps_performed jumped
          (pos + 1 + (b.bytes pos % 256)) [46]
          (output ++ delim ++
            ((List.range (b.bytes pos % 256)).map fun i => b.bytes (pos + 1 + i) % 256).map
              asciiLower)

/-- The `read_qname` of main.rs.  Fuel 8000 dominates the loop measure
`(6 - jumps_performed) * 1024 + (512 - pos)` (at most 6656), see
`main_read_qname_go_total`. -/
def Main.read_qname (b : PacketBuffer) : MainOutcome (List Nat × PacketBuffer) :=
  (Main.read_qname_go 8000 b 0 false b.pos [] []).getD .oob

/-- The fuelled main.rs loop cannot run out of fuel above its measure. -/
theorem main_read_qname_go_total :
    ∀ (fuel : Nat) (b : PacketBuffer) (jumps : Nat) (jumped : Bool)
      (pos : Nat) (delim output : List Nat),
      (6 - jumps) * 1024 + (512 - pos) < fuel →
      (Main.read_qname_go fuel b jumps jumped pos delim output).isSome := by
  intro fuel
  induction fuel with
  | zero => intro b jumps jumped pos delim output h; omega
  | succ fuel ih =>
    intro b jumps jumped pos delim output h
    rw [Main.read_qname_go]
    repeat' split
    all_goals
      first
        | rfl
        | (apply ih; omega)

/-- The top-level fuel of `Main.read_qname` is always sufficient. -/
theorem main_read_qname_fuel_sufficient (b : PacketBuffer) :
    (Main.read_qname_go 8000 b 0 false b.pos [] []).isSome := by
  apply main_read_qname_go_total
  omega

/-- The pure core of `Server::handle_query` (server.rs lines 71-117): given
the decoded request and the resolution function (the `recursive_lookup`
call, abstracted as an oracle since it performs UDP I/O), build the
response packet.  `Vec::pop` takes the last question. -/
def handle_query_core (resolve : List Nat → RecordType → Except Error Packet)
    (request : Packet) : Packet :=
  let packet :=
    { Packet.default with
        header := { Header.default with
                      id := request.header.id,
                      recursion_desired := true,
                      recursion_available := true,
                      is_response := true } }
  match request.questions.getLast? with
  | some question =>
    match resolve question.name question.question_type with
    | .ok result =>
      { packet with
          questions := packet.questions ++ [question],
          answers := result.answers,
          authorities := result.authorities,
          additionals := result.additionals,
          header := { packet.header with
                        question_count := packet.header.question_count + 1,
                        response_code := result.header.response_code,
                        answer_count := packet.header.answer_count + result.answers.length,
                        authority_count := packet.header.authority_count + result.authorities.length,
                        additional_count := packet.header.additional_count + result.additionals.length } }
    | .error _ =>
      { packet with header := { packet.header with response_code := .ServFail } }
  | none =>
    { packet with header := { packet.header with response_code := .FormErr } }

/-- The root nameserver `198.41.0.4` hard-coded in `recursive_lookup`. -/
def rootNS : Ipv4 := ⟨198, 41, 0, 4⟩

/-- `Server::recursive_lookup` (server.rs lines 133-188), with the UDP
`Server::lookup` call abstracted as the oracle `lk` (a mocked upstream) and
an explicit fuel counting loop iterations and recursive sub-resolutions;
`none` means the computation did not return within `fuel` steps, so
`(∀ fuel, ... = none)` says the source's unbounded loop never returns. -/
def recursive_lookup_go (lk : List Nat → RecordType → Ipv4 × Nat → Except Error Packet) :
    Nat → List Nat → RecordType → Ipv4 → Option (Except Error Packet)
  | 0, _, _, _ => none
  | fuel + 1, qname, qtype, ns =>
    match lk qname qtype (ns, 53) with
    | .error e => some (.error e)
    | .ok response =>
      -- `if !response.answers.is_empty() && rcode == NoError { return }`
      if response.answers ≠ [] ∧ response.header.response_code = .NoError then
        some (.ok response)
      -- `if rcode == NXDomain { return }`
      else if response.header.response_code = .NXDomain then some (.ok response)
      else
        match response.get_resolved_ns qname with
        | some new_ns => recursive_lookup_go lk fuel qname qtype new_ns
        | none =>
          match response.get_unresolved_ns qname with
          | none => some (.ok response)
          | some new_ns_name =>
            -- `self.recursive_lookup(&new_ns_name, RecordType::A)?`
            match recursive_lookup_go lk fuel new_ns_name .A rootNS with
            | none => none
            | some (.error e) => some (.error e)
            | some (.ok recursive_response) =>
              match recursive_response.get_random_a with
              | some new_ns => recursive_lookup_go lk fuel qname qtype new_ns
              | none => some (.ok response)

/-- `Server::recursive_lookup` from its entry point (`ns` starts at root). -/
def recursive_lookup (lk : List Nat → RecordType → Ipv4 × Nat → Except Error Packet)
    (fuel : Nat) (qname : List Nat) (qtype : RecordType) : Option (Except Error Packet) :=
  recursive_lookup_go lk fuel qname qtype rootNS

/-- A buffer whose first cells are the given octets (cursor 0), the test
harness notion of "a buffer whose first bytes are b". -/
def bufOfList (l : List Nat) : PacketBuffer := { bytes := fun i => l.getD i 0, pos := 0 }

/-- Decode 12 header octets and re-encode them into a fresh buffer. -/
def headerRoundtripBytes (l : List Nat) : Except Error (List Nat) := do
  let (h, _) ← Header.try_from (bufOfList l)
  let b ← Header.write h PacketBuffer.new
  .ok ((List.range 12).map b.bytes)

/-- C1: decoding the valid header octets `AA BB 08 00 00 00 00 00 00 00 00
00` (opcode 1, an IQUERY) and re-encoding them yields `AA BB 00 00 ...`:
the opcode mask `0x74` of `Header::try_from` drops bit 3 of the flag byte,
so the bytes do not round-trip. -/
theorem c1_header_opcode_bit3_lost :
    headerRoundtripBytes [0xAA, 0xBB, 0x08, 0, 0, 0, 0, 0, 0, 0, 0, 0] =
      .ok [0xAA, 0xBB, 0, 0, 0, 0, 0, 0, 0, 0, 0, 0] ∧
    [(0xAA : Nat), 0xBB, 0, 0, 0, 0, 0, 0, 0, 0, 0, 0] ≠
      [0xAA, 0xBB, 0x08, 0, 0, 0, 0, 0, 0, 0, 0, 0] :=
  ⟨rfl, by decide⟩

/-- The 512-cell content of a packet with one question whose name is the
compression pointer `C2 00`, i.e. an absolute offset of 512. -/
def c4buf : PacketBuffer := bufOfList [0, 0, 0, 0, 0, 1, 0, 0, 0, 0, 0, 0, 0xC2, 0]

/-- C4: on a buffer whose question name is a pointer to offset 512, the
main.rs decoder panics out of bounds (its `get` is unchecked), while the
packet.rs decoder fails with `PacketBufferOver512`; the full main.rs packet
decode reaches that panic through `Question::try_from`. -/
theorem c4_main_decode_panics_past_511 :
    Main.read_qname { c4buf with pos := 12 } = .oob ∧
    PacketBuffer.read_qname { c4buf with pos := 12 } = .error .PacketBufferOver512 ∧
    Packet.try_from c4buf = .error .PacketBufferOver512 :=
  ⟨rfl, rfl, rfl⟩

/-- C5: `set_u16(0, 0x1234)` stores `0x34` at position 0 and leaves
position 1 unchanged (both `set_u8` calls target `pos`), instead of the
claimed big-endian pair `(0x12, 0x34)`. -/
theorem c5_set_u16_double_writes_position :
    (PacketBuffer.set_u16 PacketBuffer.new 0 0x1234).map
        (fun b => (b.bytes 0, b.bytes 1, b.pos)) = .ok (0x34, 0, 0) ∧
    ¬((0x34 : Nat) = 0x12 ∧ (0 : Nat) = 0x34) :=
  ⟨rfl, by decide⟩

/-- The labels-with-length-prefixes part of the on-wire form of a name. -/
def wireLabels : List (List Nat) → List Nat
  | [] => []
  | l :: ls => l.length :: (l ++ wireLabels ls)

/-- Total on-wire size of a name: length-prefixed labels plus the
terminating zero octet. -/
def wireSize (n : List Nat) : Nat := (wireLabels (splitDot n)).length + 1

/-- The octets of "example.com". -/
def c6name : List Nat := [101, 120, 97, 109, 112, 108, 101, 46, 99, 111, 109]

/-- The octets of "mail.example.com". -/
def c6exchange : List Nat :=
  [109, 97, 105, 108, 46, 101, 120, 97, 109, 112, 108, 101, 46, 99, 111, 109]

/-- The locally constructed MX record of the claim (preamble `len` set to
the claimed correct rdlength 20 = wire size of the exchange plus 2). -/
def c6mx : Record :=
  .MX { name := c6name, record_type := .MX, _class := 1, ttl := 3600, len := 20 } 10 c6exchange

/-- What decoding the encoded record actually yields: every field survives
except the preamble length, which reads back as 6144. -/
def c6mxDecoded : Record :=
  .MX { name := c6name, record_type := .MX, _class := 1, ttl := 3600, len := 6144 } 10 c6exchange

/-- C6: encoding the MX record writes the rdlength bytes `(24, 0)` at
positions 21-22 (size is computed as `pos - pos0 + 2` = 24 instead of 20,
and `set_u16` then puts the low byte at `pos0` and never touches
`pos0 + 1`), so the decoded record carries rdlength 6144 and the stored
rdlength is not the exchange's wire size plus 2. -/
theorem c6_mx_rdlength_backpatch_wrong :
    (Record.write c6mx PacketBuffer.new).map (fun b => (b.bytes 21, b.bytes 22, b.pos)) =
      .ok (24, 0, 43) ∧
    ((Record.write c6mx PacketBuffer.new).bind
        (fun b => Record.try_from { b with pos := 0 })).map Prod.fst = .ok c6mxDecoded ∧
    c6mxDecoded ≠ c6mx ∧
    24 * 256 + 0 ≠ wireSize c6exchange + 2 := by
  refine ⟨rfl, rfl, by decide, by decide⟩

/-- A 512-cell content whose name at offset 0 requires exactly five pointer
hops: pointers 0 → 4 → 8 → 12 → 16 → 20, then the label "www" and the
terminating zero. -/
def fiveJumpBuf : PacketBuffer :=
  bufOfList [0xC0, 4, 0, 0, 0xC0, 8, 0, 0, 0xC0, 12, 0, 0, 0xC0, 16, 0, 0,
             0xC0, 20, 0, 0, 3, 119, 119, 119, 0]

/-- C3 counterexample: on the same five-hop name the packet.rs `read_qname`
(`jumps >= MAX_JUMPS`) fails with `MaxJumpsAttained`, while the main.rs
copy (`jumps_performed > max_jumps`) performs the fifth jump and returns
the name "www" - so a name whose decoding requires a fifth jump is
returned by one of the two cited `read_qname` implementations. -/
theorem c3_five_jump_name_decodes_in_main :
    PacketBuffer.read_qname fiveJumpBuf = .error .MaxJumpsAttained ∧
    Main.read_qname fiveJumpBuf = .ok ([119, 119, 119], { fiveJumpBuf with pos := 2 }) :=
  ⟨rfl, rfl⟩

/-- C3 amended: the packet.rs loop aborts with `MaxJumpsAttained` as soon
as the jump counter reaches `MAX_JUMPS` = 5 (so its fifth jump can never
produce a name), whereas the main.rs loop aborts only once the counter
exceeds 5, i.e. from the sixth jump on. -/
theorem c3_jump_cap_behaviour :
    (∀ (fuel : Nat) (b : PacketBuffer) (jumps : Nat) (jumped : Bool)
        (local_pos : Nat) (delim output : List Nat),
        jumps ≥ MAX_JUMPS → 0 < fuel →
        PacketBuffer.read_qname_go fuel b jumps jumped local_pos delim output =
          some (.error .MaxJumpsAttained)) ∧
    (∀ (fuel : Nat) (b : PacketBuffer) (jumps : Nat) (jumped : Bool)
        (pos : Nat) (delim output : List Nat),
        jumps > 5 → 0 < fuel →
        Main.read_qname_go fuel b jumps jumped pos delim output =
          some (.err .MaxJumpsAttained)) := by
  constructor
  · intro fuel b jumps jumped local_pos delim output hj hf
    cases fuel with
    | zero => omega
    | succ fuel => rw [PacketBuffer.read_qname_go, if_pos hj]
  · intro fuel b jumps jumped pos delim output hj hf
    cases fuel with
    | zero => omega
    | succ fuel => rw [Main.read_qname_go, if_pos hj]

/-- Witness for `c3_jump_cap_behaviour` at concrete inputs. -/
theorem c3_jump_cap_behaviour_witness :
    ((5 : Nat) ≥ MAX_JUMPS ∧ (0 : Nat) < 1 ∧
      PacketBuffer.read_qname_go 1 PacketBuffer.new 5 false 0 [] [] =
        some (.error .MaxJumpsAttained)) ∧
    ((6 : Nat) > 5 ∧
      Main.read_qname_go 1 PacketBuffer.new 6 false 0 [] [] =
        some (.err .MaxJumpsAttained)) :=
  ⟨⟨by decide, by decide,
      c3_jump_cap_behaviour.1 1 PacketBuffer.new 5 false 0 [] [] (by decide) (by decide)⟩,
    ⟨by decide,
      c3_jump_cap_behaviour.2 1 PacketBuffer.new 6 false 0 [] [] (by decide) (by decide)⟩⟩

/-- C10: every byte outside 1..5 decodes to `NoError` (in particular the
genuine DNS rcodes 6..15), and two header byte sequences differing only in
the rcode nibble (6 versus 0) decode to the same header, so header decoding
is not injective on the response-code field. -/
theorem c10_rcodes_outside_one_to_five_collapse :
    (∀ v : Nat, ¬(1 ≤ v ∧ v ≤ 5) → ResultCode.fromByte v = .NoError) ∧
    ((Header.try_from (bufOfList [0, 0, 0, 6, 0, 0, 0, 0, 0, 0, 0, 0])).map Prod.fst =
      (Header.try_from (bufOfList [0, 0, 0, 0, 0, 0, 0, 0, 0, 0, 0, 0])).map Prod.fst) ∧
    (bufOfList [0, 0, 0, 6, 0, 0, 0, 0, 0, 0, 0, 0]).bytes 3 ≠
      (bufOfList [0, 0, 0, 0, 0, 0, 0, 0, 0, 0, 0, 0]).bytes 3 := by
  refine ⟨?_, rfl, by decide⟩
  intro v hv
  match v with
  | 0 => rfl
  | 1 => exact absurd ⟨by omega, by omega⟩ hv
  | 2 => exact absurd ⟨by omega, by omega⟩ hv
  | 3 => exact absurd ⟨by omega, by omega⟩ hv
  | 4 => exact absurd ⟨by omega, by omega⟩ hv
  | 5 => exact absurd ⟨by omega, by omega⟩ hv
  | n + 6 => rfl

/-- Witness for `c10_rcodes_outside_one_to_five_collapse` at rcode 9. -/
theorem c10_rcodes_witness :
    ¬(1 ≤ (9 : Nat) ∧ (9 : Nat) ≤ 5) ∧ ResultCode.fromByte 9 = .NoError :=
  ⟨by decide, c10_rcodes_outside_one_to_five_collapse.1 9 (by decide)⟩

/-- Preamble of an A record that declares rdlength 5. -/
def c7apre : RecordPreamble := { name := [], record_type := .A, _class := 1, ttl := 0, len := 5 }

/-- A record wire image: root name, type A, class 1, ttl 0, rdlength 5,
then the RDATA octets. -/
def c7abuf : PacketBuffer := bufOfList [0, 0, 1, 0, 1, 0, 0, 0, 0, 0, 5, 93, 184, 216, 34]

/-- C7 counterexample: decoding an A record whose preamble declares
rdlength 5 succeeds and leaves the cursor at 15 = preamble size 11 plus the
4 octets the A decoder always reads, not at 11 + 5 as the claim states. -/
theorem c7_a_record_ignores_declared_rdlength :
    Record.try_from c7abuf = .ok (.A c7apre ⟨93, 184, 216, 34⟩, { c7abuf with pos := 15 }) ∧
    c7apre.len = 5 ∧ (15 : Nat) ≠ 11 + 5 :=
  ⟨rfl, rfl, by decide⟩

/-- C7 amended: after a successful `Record::try_from` the cursor has
advanced past the preamble by the variant's actual payload size - exactly
`rdlength` for `Unknown` (which skips `len` octets verbatim), but exactly 4
for `A` whatever `rdlength` declares. -/
theorem c7_cursor_advance_by_variant :
    (∀ (b : PacketBuffer) (pre : RecordPreamble) (b1 : PacketBuffer) (t : Nat),
        Record.read_preamble b = .ok (pre, b1) → pre.record_type = .Unknown t →
        Record.try_from b = .ok (.Unknown pre, { b1 with pos := b1.pos + pre.len })) ∧
    (∀ (b : PacketBuffer) (pre : RecordPreamble) (b1 : PacketBuffer),
        Record.read_preamble b = .ok (pre, b1) → pre.record_type = .A →
        b1.pos + 4 ≤ 512 →
        Record.try_from b =
          .ok (.A pre ⟨b1.bytes b1.pos % 256, b1.bytes (b1.pos + 1) % 256,
                       b1.bytes (b1.pos + 2) % 256, b1.bytes (b1.pos + 3) % 256⟩,
               { b1 with pos := b1.pos + 4 })) := by
  constructor
  · intro b pre b1 t hpre htype
    rw [Record.try_from, hpre]
    simp only [bind, Except.bind]
    rw [htype]
    rfl
  · intro b pre b1 hpre htype hfit
    rw [Record.try_from, hpre]
    simp only [bind, Except.bind]
    rw [htype]
    simp only [PacketBuffer.read_u8, bind, Except.bind]
    rw [if_neg (show ¬(b1.pos ≥ 512) by omega)]
    dsimp only
    rw [if_neg (show ¬(b1.pos + 1 ≥ 512) by omega)]
    dsimp only
    rw [if_neg (show ¬(b1.pos + 2 ≥ 512) by omega)]
    dsimp only
    rw [if_neg (show ¬(b1.pos + 3 ≥ 512) by omega)]

/-- Wire image of an Unknown-type record: root name, type 99, class 1,
ttl 0, rdlength 7. -/
def c7ubuf : PacketBuffer := bufOfList [0, 0, 99, 0, 1, 0, 0, 0, 0, 0, 7]

/-- Preamble decoded from `c7ubuf`. -/
def c7upre : RecordPreamble := { name := [], record_type := .Unknown 99, _class := 1, ttl := 0, len := 7 }

/-- Witness for `c7_cursor_advance_by_variant`: the Unknown record of
`c7ubuf` decodes with the cursor advanced by exactly its rdlength 7 past
the preamble, and the A record of `c7abuf` with the cursor advanced by 4. -/
theorem c7_cursor_advance_witness :
    (Record.read_preamble c7ubuf = .ok (c7upre, { c7ubuf with pos := 11 }) ∧
      Record.try_from c7ubuf = .ok (.Unknown c7upre, { c7ubuf with pos := 11 + 7 })) ∧
    (Record.read_preamble c7abuf = .ok (c7apre, { c7abuf with pos := 11 }) ∧
      Record.try_from c7abuf =
        .ok (.A c7apre ⟨93, 184, 216, 34⟩, { c7abuf with pos := 11 + 4 })) := by
  constructor
  · exact ⟨rfl, c7_cursor_advance_by_variant.1 c7ubuf c7upre { c7ubuf with pos := 11 } 99 rfl rfl⟩
  · refine ⟨rfl, ?_⟩
    have h := c7_cursor_advance_by_variant.2 c7abuf c7apre { c7abuf with pos := 11 } rfl rfl (by decide)
    exact h.trans (by rfl)

/-- An NS authority record delegating the root zone (owner name empty, so
it matches every query name) to the host "ns". -/
def c8ns : Record :=
  .NS { name := [], record_type := .NS, _class := 1, ttl := 0, len := 0 } [110, 115]

/-- A glue A record for the host "ns". -/
def c8glue : Record :=
  .A { name := [110, 115], record_type := .A, _class := 1, ttl := 0, len := 4 } ⟨10, 0, 0, 1⟩

/-- A pure referral response: `NoError`, no answers, one matching NS
authority and its glue address. -/
def c8response : Packet :=
  { header := Header.default, questions := [], answers := [],
    authorities := [c8ns], additionals := [c8glue] }

/-- A mocked upstream that answers every query with the same referral. -/
def c8oracle : List Nat → RecordType → Ipv4 × Nat → Except Error Packet :=
  fun _ _ _ => .ok c8response

/-- C8: against the referral-forever upstream, `recursive_lookup` never
returns: for every step budget the loop is still running (it keeps taking
the glue-follow branch, and server.rs has no iteration or depth cap). -/
theorem c8_recursive_lookup_never_returns :
    (∀ (fuel : Nat) (qname : List Nat) (qtype : RecordType) (ns : Ipv4),
        recursive_lookup_go c8oracle fuel qname qtype ns = none) ∧
    (∀ (fuel : Nat) (qname : List Nat),
        recursive_lookup c8oracle fuel qname .A = none) := by
  have main : ∀ (fuel : Nat) (qname : List Nat) (qtype : RecordType) (ns : Ipv4),
      recursive_lookup_go c8oracle fuel qname qtype ns = none := by
    intro fuel
    induction fuel with
    | zero => intro qname qtype ns; rfl
    | succ fuel ih =>
      intro qname qtype ns
      rw [recursive_lookup_go]
      have hresolved : c8response.get_resolved_ns qname = some ⟨10, 0, 0, 1⟩ := by
        simp [Packet.get_resolved_ns, Packet.match_ns, c8response, c8ns, c8glue,
          List.isSuffixOf, List.filterMap]
      simp only [c8oracle, hresolved]
      simp only [c8response, Header.default]
      simp only [ne_eq, not_true_eq_false, false_and, if_false, reduceCtorEq, if_neg]
      exact ih qname qtype _
  exact ⟨main, fun fuel qname => main fuel qname .A rootNS⟩

/-- Serializing a packet that carries no questions and no records always
succeeds: only the 12 header octets are written, well inside the buffer. -/
theorem write_header_only_ok (p : Packet) (hq : p.questions = [])
    (ha : p.answers = []) (hau : p.authorities = []) (had : p.additionals = []) :
    (p.write PacketBuffer.new).isOk = true := by
  simp [Packet.write, hq, ha, hau, had, writeQuestions, writeRecords, Header.write,
    PacketBuffer.write_u16, PacketBuffer.write_u8, bind, Except.bind, PacketBuffer.new,
    Except.isOk, Except.toBool]

/-- C9: for a decoded request, a missing question yields a `FormErr`
response and a resolver failure yields a `ServFail` response, and in both
cases the response still serializes successfully (so a reply is sent). -/
theorem c9_formerr_and_servfail_responses
    (resolve : List Nat → RecordType → Except Error Packet) (request : Packet) :
    (request.questions = [] →
      (handle_query_core resolve request).header.response_code = .FormErr ∧
      ((handle_query_core resolve request).write PacketBuffer.new).isOk = true) ∧
    (∀ (q : Question) (e : Error), request.questions.getLast? = some q →
      resolve q.name q.question_type = .error e →
      (handle_query_core resolve request).header.response_code = .ServFail ∧
      ((handle_query_core resolve request).write PacketBuffer.new).isOk = true) := by
  constructor
  · intro hq
    rw [handle_query_core, hq]
    exact ⟨rfl, write_header_only_ok _ rfl rfl rfl rfl⟩
  · intro q e hq hres
    rw [handle_query_core, hq]
    dsimp only
    rw [hres]
    exact ⟨rfl, write_header_only_ok _ rfl rfl rfl rfl⟩

/-- Witness for `c9_formerr_and_servfail_responses`: a question-less
request gets `FormErr`, and a request whose single question makes the
resolver fail gets `ServFail`. -/
theorem c9_responses_witness :
    ((handle_query_core (fun _ _ => .error .UDPRecvFailed) Packet.default).header.response_code =
        .FormErr ∧
      ((handle_query_core (fun _ _ => .error .UDPRecvFailed) Packet.default).write
          PacketBuffer.new).isOk = true) ∧
    ((handle_query_core (fun _ _ => .error .UDPRecvFailed)
          (Packet.default.add_question [120] .A)).header.response_code = .ServFail ∧
      ((handle_query_core (fun _ _ => .error .UDPRecvFailed)
          (Packet.default.add_question [120] .A)).write PacketBuffer.new).isOk = true) :=
  ⟨(c9_formerr_and_servfail_responses (fun _ _ => .error .UDPRecvFailed) Packet.default).1 rfl,
    (c9_formerr_and_servfail_responses (fun _ _ => .error .UDPRecvFailed)
        (Packet.default.add_question [120] .A)).2 (Question.new [120] .A) .UDPRecvFailed rfl rfl⟩

/-- Iterated `setByte` over consecutive positions, the effect of writing a
list of octets starting at `p`. -/
def setMany (f : Nat → Nat) (p : Nat) : List Nat → (Nat → Nat)
  | [] => f
  | v :: vs => setMany (setByte f p v) (p + 1) vs

theorem setMany_append (xs : List Nat) :
    ∀ (ys : List Nat) (f : Nat → Nat) (p : Nat),
      setMany f p (xs ++ ys) = setMany (setMany f p xs) (p + xs.length) ys := by
  induction xs with
  | nil => intro ys f p; rfl
  | cons x xs ih =>
    intro ys f p
    show setMany (setByte f p x) (p + 1) (xs ++ ys) = _
    rw [ih ys (setByte f p x) (p + 1)]
    have h : p + 1 + xs.length = p + (x :: xs).length := by simp; omega
    rw [h]
    rfl

theorem setMany_lt (w : List Nat) :
    ∀ (f : Nat → Nat) (p j : Nat), j < p → setMany f p w j = f j := by
  induction w with
  | nil => intro f p j _; rfl
  | cons v vs ih =>
    intro f p j hj
    show setMany (setByte f p v) (p + 1) vs j = f j
    rw [ih (setByte f p v) (p + 1) j (by omega)]
    simp [setByte]
    omega

theorem setMany_get (w : List Nat) :
    ∀ (f : Nat → Nat) (p i : Nat), i < w.length →
      setMany f p w (p + i) = w.getD i 0 % 256 := by
  induction w with
  | nil => intro f p i h; simp at h
  | cons v vs ih =>
    intro f p i h
    match i with
    | 0 =>
      show setMany (setByte f p v) (p + 1) vs (p + 0) = v % 256
      rw [setMany_lt vs _ _ _ (by omega)]
      simp [setByte]
    | i + 1 =>
      show setMany (setByte f p v) (p + 1) vs (p + (i + 1)) = vs.getD i 0 % 256
      have harith : p + (i + 1) = (p + 1) + i := by omega
      rw [harith, ih (setByte f p v) (p + 1) i (by simp at h; omega)]

/-- Joining labels with a leading delimiter, the shape of the output
accumulator of `read_qname` (delimiter empty before the first label, a dot
afterwards). -/
def joinD : List Nat → List (List Nat) → List Nat
  | _, [] => []
  | d, l :: ls => d ++ l ++ joinD [46] ls

theorem splitDot_ne_nil (n : List Nat) : splitDot n ≠ [] := by
  match n with
  | [] => simp [splitDot]
  | c :: rest =>
    rw [splitDot]
    split
    · simp
    · split <;> simp

theorem joinD_dot_of_ne_nil (S : List (List Nat)) (h : S ≠ []) :
    joinD [46] S = 46 :: joinD [] S := by
  match S with
  | [] => exact absurd rfl h
  | t :: ts => rfl

theorem joinD_map_lower_splitDot (n : List Nat) :
    joinD [] ((splitDot n).map (List.map asciiLower)) = n.map asciiLower := by
  induction n with
  | nil => rfl
  | cons c rest ih =>
    rw [splitDot]
    split
    · rename_i hc
      subst hc
      rw [List.map_cons, joinD]
      have hne : (splitDot rest).map (List.map asciiLower) ≠ [] := by
        simp [splitDot_ne_nil rest]
      rw [joinD_dot_of_ne_nil _ hne, ih]
      simp [asciiLower]
    · rename_i hc
      obtain ⟨t, ts, hS⟩ := List.exists_cons_of_ne_nil (splitDot_ne_nil rest)
      rw [hS, List.map_cons, joinD, List.map_cons]
      have hrest : joinD [] ((splitDot rest).map (List.map asciiLower)) =
          rest.map asciiLower := ih
      rw [hS, List.map_cons, joinD] at hrest
      simp only [List.nil_append] at hrest
      simp only [List.map_cons, List.nil_append, List.cons_append]
      rw [hrest]

theorem mem_of_mem_splitDot :
    ∀ (n l : List Nat) (c : Nat), l ∈ splitDot n → c ∈ l → c ∈ n := by
  intro n
  induction n with
  | nil =>
    intro l c hl hc
    simp [splitDot] at hl
    subst hl
    simp at hc
  | cons c0 rest ih =>
    intro l c hl hc
    rw [splitDot] at hl
    split at hl
    · rcases List.mem_cons.mp hl with h | h
      · subst h; simp at hc
      · exact List.mem_cons_of_mem _ (ih l c h hc)
    · rename_i hne
      rcases hS : splitDot rest with _ | ⟨t, ts⟩
      · exact absurd hS (splitDot_ne_nil rest)
      · rw [hS] at hl
        rcases List.mem_cons.mp hl with h | h
        · subst h
          rcases List.mem_cons.mp hc with h' | h'
          · subst h'; exact List.mem_cons_self _ _
          · exact List.mem_cons_of_mem _ (ih t c (by rw [hS]; exact List.mem_cons_self _ _) h')
        · exact List.mem_cons_of_mem _ (ih l c (by rw [hS]; exact List.mem_cons_of_mem _ h) hc)

theorem mem_wireLabels :
    ∀ (ls : List (List Nat)) (x : Nat), x ∈ wireLabels ls →
      (∃ l ∈ ls, x = l.length) ∨ (∃ l ∈ ls, x ∈ l) := by
  intro ls
  induction ls with
  | nil => intro x hx; simp [wireLabels] at hx
  | cons l ls ih =>
    intro x hx
    rw [wireLabels] at hx
    rcases List.mem_cons.mp hx with h | h
    · exact .inl ⟨l, List.mem_cons_self _ _, h⟩
    · rcases List.mem_append.mp h with h' | h'
      · exact .inr ⟨l, List.mem_cons_self _ _, h'⟩
      · rcases ih x h' with ⟨l', hl', hx'⟩ | ⟨l', hl', hx'⟩
        · exact .inl ⟨l', List.mem_cons_of_mem _ hl', hx'⟩
        · exact .inr ⟨l', List.mem_cons_of_mem _ hl', hx'⟩

theorem length_le_wireLabels : ∀ ls : List (List Nat), ls.length ≤ (wireLabels ls).length := by
  intro ls
  induction ls with
  | nil => simp [wireLabels]
  | cons l ls ih => simp [wireLabels]; omega

/-- Labels with length below 64 can never look like a compression pointer. -/
theorem land192_of_lt : ∀ m, m < 64 → m &&& 192 = 0 := by decide

/-- The cells starting at `p` agree with the octet list `w`. -/
def Agrees (f : Nat → Nat) (p : Nat) (w : List Nat) : Prop :=
  ∀ i, i < w.length → f (p + i) = w.getD i 0

theorem Agrees.head {f : Nat → Nat} {p : Nat} {x : Nat} {xs : List Nat}
    (h : Agrees f p (x :: xs)) : f p = x :=
  h 0 (by simp)

theorem Agrees.tail {f : Nat → Nat} {p : Nat} {x : Nat} {xs : List Nat}
    (h : Agrees f p (x :: xs)) : Agrees f (p + 1) xs := by
  intro i hi
  have := h (i + 1) (by simp; omega)
  rw [show p + 1 + i = p + (i + 1) from by omega]
  simpa using this

theorem Agrees.append_left {f : Nat → Nat} {p : Nat} :
    ∀ {xs ys : List Nat}, Agrees f p (xs ++ ys) → Agrees f p xs := by
  intro xs ys h i hi
  have := h i (by simp; omega)
  rwa [List.getD_append _ _ _ _ hi] at this

theorem Agrees.append_right {f : Nat → Nat} :
    ∀ (xs : List Nat) {ys : List Nat} {p : Nat},
      Agrees f p (xs ++ ys) → Agrees f (p + xs.length) ys := by
  intro xs
  induction xs with
  | nil => intro ys p h; simpa using h
  | cons x xs ih =>
    intro ys p h
    have h' : Agrees f (p + 1) (xs ++ ys) := Agrees.tail h
    have := ih h'
    rwa [show p + 1 + xs.length = p + (x :: xs).length from by simp; omega] at this

/-- Reading back a stretch of cells that agree with an octet list of values
below 256 reproduces the list. -/
theorem range_map_of_agrees {f : Nat → Nat} {p : Nat} {w : List Nat}
    (h : Agrees f p w) (hw : ∀ c ∈ w, c < 256) :
    ((List.range w.length).map fun i => f (p + i) % 256) = w := by
  apply List.ext_getElem
  · simp
  · intro i h1 h2
    simp only [List.getElem_map, List.getElem_range]
    rw [h i (by simpa using h1)]
    rw [List.getD_eq_getElem w 0 h2]
    exact Nat.mod_eq_of_lt (hw _ (List.getElem_mem h2))

/-- `write_bytes` writes the octets verbatim and advances the cursor. -/
theorem write_bytes_ok :
    ∀ (l : List Nat) (b : PacketBuffer), b.pos + l.length ≤ 512 →
      b.write_bytes l = .ok { bytes := setMany b.bytes b.pos l, pos := b.pos + l.length }
  | [], b, _ => rfl
  | c :: cs, b, h => by
    rw [PacketBuffer.write_bytes, PacketBuffer.write_u8,
      if_neg (show ¬(b.pos ≥ 512) by simp only [List.length_cons] at h; omega)]
    dsimp only
    rw [write_bytes_ok cs _ (by
      simp only [List.length_cons] at h
      show b.pos + 1 + cs.length ≤ 512
      omega)]
    simp only [setMany, List.length_cons, Except.ok.injEq, PacketBuffer.mk.injEq]
    exact ⟨trivial, by omega⟩

/-- `write_labels` writes the length-prefixed labels and advances the
cursor by the wire size of the label list. -/
theorem write_labels_ok :
    ∀ (ls : List (List Nat)) (b : PacketBuffer),
      (∀ l ∈ ls, l.length < 63) →
      b.pos + (wireLabels ls).length ≤ 512 →
      b.write_labels ls =
        .ok { bytes := setMany b.bytes b.pos (wireLabels ls),
              pos := b.pos + (wireLabels ls).length }
  | [], b, _, _ => rfl
  | l :: ls, b, hlen, hfit => by
    have hw : (wireLabels (l :: ls)).length = 1 + l.length + (wireLabels ls).length := by
      simp [wireLabels]; omega
    rw [PacketBuffer.write_labels,
      if_neg (show ¬(l.length ≥ 63) from by
        have := hlen l (List.mem_cons_self _ _); omega)]
    rw [PacketBuffer.write_u8, if_neg (show ¬(b.pos ≥ 512) by rw [hw] at hfit; omega)]
    dsimp only
    rw [write_bytes_ok l _ (by rw [hw] at hfit; simp; omega)]
    dsimp only
    rw [write_labels_ok ls _ (fun l' hl' => hlen l' (List.mem_cons_of_mem _ hl'))
      (by rw [hw] at hfit; simp; omega)]
    simp only [wireLabels, setMany, Except.ok.injEq, PacketBuffer.mk.injEq]
    constructor
    · rw [setMany_append]
    · simp only [List.length_cons, List.length_append]
      omega

/-- `write_qname` writes the full on-wire name (labels then the zero
terminator) and advances the cursor by its wire size. -/
theorem write_qname_ok (n : List Nat) (b : PacketBuffer)
    (hl : ∀ l ∈ splitDot n, l.length < 63)
    (hfit : b.pos + wireSize n ≤ 512) :
    b.write_qname n =
      .ok { bytes := setMany b.bytes b.pos (wireLabels (splitDot n) ++ [0]),
            pos := b.pos + wireSize n } := by
  rw [PacketBuffer.write_qname]
  rw [write_labels_ok (splitDot n) b hl (by simp only [wireSize] at hfit; omega)]
  simp only [bind, Except.bind]
  rw [PacketBuffer.write_u8]
  dsimp only
  rw [if_neg (show ¬(b.pos + (wireLabels (splitDot n)).length ≥ 512) by
    simp only [wireSize] at hfit; omega)]
  rw [setMany_append]
  simp only [wireSize, Except.ok.injEq, PacketBuffer.mk.injEq, setMany]
  exact ⟨trivial, by omega⟩

/-- Reading a compression-free on-wire name back: if the cells at `p` hold
the length-prefixed labels `ls` followed by the zero terminator, the
`read_qname` loop (never having jumped) returns the accumulated output
extended with the lowercased labels joined by dots, and seeks just past the
terminator. -/
theorem read_go_labels :
    ∀ (ls : List (List Nat)) (fuel p : Nat) (b : PacketBuffer) (d o : List Nat),
      (∀ l ∈ ls, 1 ≤ l.length ∧ l.length < 63) →
      (∀ l ∈ ls, ∀ c ∈ l, c < 256) →
      Agrees b.bytes p (wireLabels ls ++ [0]) →
      p + (wireLabels ls).length + 1 < 512 →
      ls.length < fuel →
      PacketBuffer.read_qname_go fuel b 0 false p d o =
        some (.ok (o ++ joinD d (ls.map (List.map asciiLower)),
          { b with pos := p + (wireLabels ls).length + 1 })) := by
  intro ls
  induction ls with
  | nil =>
    intro fuel p b d o _ _ hA hbound hfuel
    cases fuel with
    | zero => omega
    | succ f =>
      have hb : b.bytes p = 0 := hA.head
      rw [PacketBuffer.read_qname_go]
      rw [if_neg (show ¬((0 : Nat) ≥ MAX_JUMPS) by decide)]
      rw [if_neg (show ¬(p ≥ 512) by simp [wireLabels] at hbound; omega)]
      rw [if_neg (show ¬(b.bytes p % 256 &&& 0xC0 = 0xC0) by rw [hb]; decide)]
      rw [if_pos (show b.bytes p % 256 = 0 by rw [hb])]
      rw [if_neg (show ¬(false = true) by simp)]
      rw [if_neg (show ¬(p + 1 ≥ 512) by simp [wireLabels] at hbound; omega)]
      simp [joinD, wireLabels]
  | cons l ls ih =>
    intro fuel p b d o hl hc hA hbound hfuel
    cases fuel with
    | zero => simp at hfuel
    | succ f =>
      have hwl : (wireLabels (l :: ls)).length = l.length + (wireLabels ls).length + 1 := by
        simp [wireLabels]
      have hlen1 : 1 ≤ l.length := (hl l (List.mem_cons_self _ _)).1
      have hlen2 : l.length < 63 := (hl l (List.mem_cons_self _ _)).2
      have hb : b.bytes p = l.length := hA.head
      have hA1 : Agrees b.bytes (p + 1) ((l ++ wireLabels ls) ++ [0]) := hA.tail
      rw [List.append_assoc] at hA1
      have hAl : Agrees b.bytes (p + 1) l := hA1.append_left
      have hAr : Agrees b.bytes (p + 1 + l.length) (wireLabels ls ++ [0]) :=
        hA1.append_right l
      have bm : b.bytes p % 256 = l.length := by
        rw [hb]; exact Nat.mod_eq_of_lt (by omega)
      rw [hwl] at hbound
      rw [PacketBuffer.read_qname_go, bm]
      rw [if_neg (show ¬((0 : Nat) ≥ MAX_JUMPS) by decide)]
      rw [if_neg (show ¬(p ≥ 512) by omega)]
      rw [if_neg (show ¬(l.length &&& 0xC0 = 0xC0) by
        rw [land192_of_lt l.length (by omega)]; decide)]
      rw [if_neg (show ¬(l.length = 0) by omega)]
      rw [if_neg (show ¬(p + 1 + l.length ≥ 512) by omega)]
      rw [range_map_of_agrees hAl (hc l (List.mem_cons_self _ _))]
      rw [ih f (p + 1 + l.length) b [46] (o ++ d ++ l.map asciiLower)
        (fun l' hl' => hl l' (List.mem_cons_of_mem _ hl'))
        (fun l' hl' => hc l' (List.mem_cons_of_mem _ hl'))
        hAr (by omega) (by simp at hfuel; omega)]
      simp only [Option.some.injEq, Except.ok.injEq, Prod.mk.injEq,
        PacketBuffer.mk.injEq, List.map_cons, joinD]
      refine ⟨by simp [List.append_assoc], trivial, by rw [hwl]; omega⟩

/-- The buffer produced by writing a name into a fresh buffer. -/
def wroteBuf (n : List Nat) : PacketBuffer :=
  { bytes := setMany (fun _ => 0) 0 (wireLabels (splitDot n) ++ [0]), pos := wireSize n }

/-- C2: for a name made of ASCII labels of length 1..62 (the source rejects
length ≥ 63) whose on-wire form fits in 255 octets, `write_qname` into a
fresh buffer succeeds and `read_qname` from position 0 returns exactly the
ASCII-lowercased name with the cursor just past the terminator. -/
theorem c2_write_read_qname_roundtrip (n : List Nat)
    (hlab : ∀ l ∈ splitDot n, 1 ≤ l.length ∧ l.length < 63)
    (hascii : ∀ c ∈ n, c < 128)
    (hwire : wireSize n ≤ 255) :
    PacketBuffer.new.write_qname n = .ok (wroteBuf n) ∧
    PacketBuffer.read_qname { wroteBuf n with pos := 0 } =
      .ok (n.map asciiLower, wroteBuf n) := by
  have hw256 : ∀ x ∈ wireLabels (splitDot n) ++ [0], x < 256 := by
    intro x hx
    rcases List.mem_append.mp hx with hx | hx
    · rcases mem_wireLabels _ x hx with ⟨l, hl, hxe⟩ | ⟨l, hl, hxl⟩
      · have := (hlab l hl).2; omega
      · have := hascii x (mem_of_mem_splitDot n l x hl hxl); omega
    · simp at hx; omega
  constructor
  · rw [write_qname_ok n PacketBuffer.new (fun l h => (hlab l h).2)
      (by show 0 + wireSize n ≤ 512; omega)]
    simp [wroteBuf, PacketBuffer.new]
  · rw [PacketBuffer.read_qname]
    have hA : Agrees ({ wroteBuf n with pos := 0 } : PacketBuffer).bytes 0
        (wireLabels (splitDot n) ++ [0]) := by
      intro i hi
      show setMany (fun _ => 0) 0 (wireLabels (splitDot n) ++ [0]) (0 + i) = _
      rw [setMany_get _ _ _ _ hi]
      rw [List.getD_eq_getElem _ 0 hi]
      exact Nat.mod_eq_of_lt (hw256 _ (List.getElem_mem hi))
    rw [read_go_labels (splitDot n) 6000 0 { wroteBuf n with pos := 0 } [] []
      hlab
      (fun l hl c hc => by
        have := hascii c (mem_of_mem_splitDot n l c hl hc); omega)
      hA
      (by simp only [wireSize] at hwire; omega)
      (by
        have h1 := length_le_wireLabels (splitDot n)
        simp only [wireSize] at hwire; omega)]
    simp only [Option.getD_some, List.nil_append, joinD_map_lower_splitDot,
      Except.ok.injEq, Prod.mk.injEq]
    refine ⟨trivial, ?_⟩
    show ({ bytes := ({ wroteBuf n with pos := 0 } : PacketBuffer).bytes,
            pos := 0 + (wireLabels (splitDot n)).length + 1 } : PacketBuffer) = wroteBuf n
    simp only [wroteBuf, wireSize, PacketBuffer.mk.injEq]
    exact ⟨trivial, by omega⟩

/-- Witness for `c2_write_read_qname_roundtrip` on the name "wWw.Com". -/
theorem c2_roundtrip_witness :
    ((∀ l ∈ splitDot [119, 87, 119, 46, 67, 111, 109], 1 ≤ l.length ∧ l.length < 63) ∧
      (∀ c ∈ [119, 87, 119, 46, 67, 111, 109], c < 128) ∧
      wireSize [119, 87, 119, 46, 67, 111, 109] ≤ 255) ∧
    (PacketBuffer.new.write_qname [119, 87, 119, 46, 67, 111, 109] =
        .ok (wroteBuf [119, 87, 119, 46, 67, 111, 109]) ∧
      PacketBuffer.read_qname { wroteBuf [119, 87, 119, 46, 67, 111, 109] with pos := 0 } =
        .ok ([119, 119, 119, 46, 99, 111, 109], wroteBuf [119, 87, 119, 46, 67, 111, 109])) :=
  ⟨⟨by decide, by decide, by decide⟩,
    c2_write_read_qname_roundtrip [119, 87, 119, 46, 67, 111, 109]
      (by decide) (by decide) (by decide)⟩
